import Mathlib

/-!
Verification of the tahweel-ui Tauri backend core: a shallow embedding of
the pure logic of `src-tauri/src/pdf.rs` and `src-tauri/src/google_drive.rs`
(page naming and sorting of the PDF split pipeline, the retry executor with
its transient-error classifier and backoff computation, the content-type
inference of the Drive upload, single-page extraction, and temp-directory
cleanup), together with theorems settling the frozen claims about them.

Modelling conventions:
* Rust `Result<T, String>` becomes `Except String T`.
* Machine integers become `Nat` with explicit `% 2^w` where wrap-around
  matters (the `u32` subtraction and `as u16` cast in `extract_pdf_page`,
  release-mode wrapping semantics).
* `f64` arithmetic in the backoff computation becomes `ℚ`; every value the
  claims touch (powers of 3/2 up to exponent 5, the cap 15, quotients of
  small integers by 4294967295) is exactly representable in `f64`, so the
  rational model is exact at the points the theorems evaluate.
* A fallible remote operation is embedded as `op : Nat → Except String T`,
  giving the outcome of its `i`-th invocation; the executor additionally
  returns how many times it invoked `op` and the list of backoff delays it
  slept, so that call counts and delays are provable.
-/

namespace Tahweel

/-! ### Retry executor, from google_drive.rs -/

/-- Substring test over characters; models Rust `str::contains` with a
string pattern (`e.contains("429")` etc. in `execute_with_retry`). -/
def containsSub (s pat : String) : Bool := decide (pat.toList <:+: s.toList)

/-- The transient-error classifier of `execute_with_retry`
(google_drive.rs lines 189-195): an error is retriable iff its text
contains one of the markers. -/
def is_retriable (e : String) : Bool :=
  containsSub e "429" || containsSub e "500" || containsSub e "502" ||
  containsSub e "503" || containsSub e "504" ||
  containsSub e "timeout" || containsSub e "Timeout"

/-- `let max_retries = 5;` in `execute_with_retry`. -/
def max_retries : Nat := 5

/-- One backoff delay: `(1.5_f64.powi(retries)).min(15.0) + jitter`
(google_drive.rs lines 202-204), over `ℚ`. -/
def backoff_delay (retries : Nat) (jitter : ℚ) : ℚ :=
  min ((3 / 2 : ℚ) ^ retries) 15 + jitter

/-- `random_jitter` (google_drive.rs lines 216-222): a uniformly random
`u32` value `r` divided by `u32::MAX = 4294967295`.  The division is exact
in `f64` at the endpoints `r = 0` and `r = u32::MAX`, which are the points
the claims evaluate. -/
def random_jitter (r : Nat) : ℚ := (r : ℚ) / 4294967295

/-- The retry loop of `execute_with_retry` (google_drive.rs lines 184-210).
`r` is the current value of the `retries` counter; `fuel` is
`max_retries - r`, so the `fuel = 0` case is reached exactly when
`retries = max_retries`, where the source returns the error (the guard
`retries >= max_retries` holds there).  Returns the result, the number of
invocations of `op` performed, and the backoff delays slept in order. -/
def retryLoop {T : Type} (op : Nat → Except String T) (jit : Nat → ℚ) :
    Nat → Nat → Except String T × Nat × List ℚ
  | r, 0 =>
    match op r with
    | Except.ok v => (Except.ok v, 1, [])
    | Except.error e => (Except.error e, 1, [])
  | r, fuel + 1 =>
    match op r with
    | Except.ok v => (Except.ok v, 1, [])
    | Except.error e =>
      if is_retriable e = false ∨ max_retries ≤ r then (Except.error e, 1, [])
      else
        ((retryLoop op jit (r + 1) fuel).1,
         (retryLoop op jit (r + 1) fuel).2.1 + 1,
         backoff_delay r (jit r) :: (retryLoop op jit (r + 1) fuel).2.2)

/-- `execute_with_retry` (google_drive.rs lines 176-211), instrumented with
the invocation count and slept delays. -/
def execute_with_retry {T : Type} (op : Nat → Except String T) (jit : Nat → ℚ) :
    Except String T × Nat × List ℚ :=
  retryLoop op jit 0 max_retries

/-! ### PDF split pipeline, from pdf.rs -/

/-- The decimal digit characters: `digitChar d` is the character for digit
`d` (code point 48 + d). -/
def digitChar (d : Nat) : Char := Char.ofNat (48 + d)

/-- Big-endian decimal digits of a positive number by fuel-bounded
recursion (fuel `n` suffices because the argument drops by a factor 10
each step); models the digits produced by Rust's integer `Display`. -/
def natCharsAux : Nat → Nat → List Char
  | 0, _ => []
  | _, 0 => []
  | fuel + 1, n + 1 => natCharsAux fuel ((n + 1) / 10) ++ [digitChar ((n + 1) % 10)]

/-- Decimal representation of `n`; models Rust `Display for u32`. -/
def natChars (n : Nat) : List Char :=
  if n = 0 then ['0'] else natCharsAux n n

/-- Zero padding to width 4; models the format width in
`format!("page-\x7b:04\x7d.png", page_num + 1)` (pdf.rs line 172). -/
def zeroPad4 (l : List Char) : List Char :=
  List.replicate (4 - l.length) '0' ++ l

/-- The file name `page-NNNN.png` of rendered page `p` (1-based), pdf.rs
line 172. -/
def pageFileName (p : Nat) : String :=
  "page-" ++ String.mk (zeroPad4 (natChars p)) ++ ".png"

/-- The output path of page `p`: the temp directory joined with the page
file name (pdf.rs lines 171-172, `PathBuf::join` modelled with the `/`
separator). -/
def pagePath (tempDir : String) (p : Nat) : String :=
  tempDir ++ "/" ++ pageFileName p

/-- Spec-side shape of a zero-padded 4-digit page number, used to compare
the source's formatting against the spec's `page-0001 .. page-NNNN`. -/
def fourDigitChars (p : Nat) : List Char :=
  [digitChar (p / 1000 % 10), digitChar (p / 100 % 10),
   digitChar (p / 10 % 10), digitChar (p % 10)]

/-- A loaded PDF document, abstracted to its actual page count
(`document.pages().len()` in pdfium). -/
structure PdfDocument where
  pageCount : Nat

/-- One worker body of `split_pdf` (pdf.rs lines 144-192): getting page `i`
(`pages().get`) fails when `i` is outside the document, otherwise the page
is rendered and saved at its page path.  Rendering and disk I/O are
modelled as succeeding; the pdfium error text inside the message is
elided. -/
def renderPage (doc : PdfDocument) (tempDir : String) (i : Nat) : Except String String :=
  if i < doc.pageCount then Except.ok (pagePath tempDir (i + 1))
  else Except.error ("Failed to get page " ++ toString (i + 1))

/-- Collecting a vector of results into a result of a vector (pdf.rs line
196): the first error in index order wins. -/
def collectResults {α : Type} : List (Except String α) → Except String (List α)
  | [] => Except.ok []
  | Except.ok v :: rest => (collectResults rest).map (fun vs => v :: vs)
  | Except.error e :: _ => Except.error e

/-- `image_paths.sort()` (pdf.rs line 199): ascending sort in the
lexicographic string order (Rust sorts by UTF-8 bytes; byte order and code
point order agree on valid UTF-8). -/
def sortStrings (l : List String) : List String :=
  l.mergeSort (fun a b => decide (a ≤ b))

/-- The pure artifact logic of `split_pdf` (pdf.rs lines 112-205): render
pages `0 .. totalPages - 1` (the rayon collection is indexed by page, so
parallel completion order does not affect it), collect propagating the
first error, and sort the path list. -/
def split_pdf (doc : PdfDocument) (tempDir : String) (totalPages : Nat) :
    Except String (List String) :=
  (collectResults ((List.range totalPages).map (renderPage doc tempDir))).map sortStrings

/-- File-system operations performed by the split pipeline, for stating
that it never cleans up after itself. -/
inductive FsOp
  | createTempDir : String → FsOp
  | writeFile : String → FsOp
  | removeDirAll : String → FsOp

/-- The file-system operations `split_pdf` performs, in pipeline order:
`TempDir::new` followed by `keep()` (pdf.rs lines 126-127, which disables
the destructor's deletion), then one PNG write per in-range page (pdf.rs
lines 171-176; rayon runs every page task even if another failed).  No
removal operation occurs anywhere in the function. -/
def split_pdf_ops (doc : PdfDocument) (tempDir : String) (totalPages : Nat) : List FsOp :=
  FsOp.createTempDir tempDir ::
    (List.range totalPages).filterMap (fun i =>
      if i < doc.pageCount then some (FsOp.writeFile (pagePath tempDir (i + 1))) else none)

/-- `extract_pdf_page` (pdf.rs lines 209-253): the 1-based page number is
decremented as `u32` (wrapping, release-build semantics; 4294967296 is
2 to the 32nd) and cast `as u16` (modulo 65536), then looked up in the
document; the output path gets a `.png` suffix appended unless already
present (`ends_with`, modelled on characters).  Rendering and saving are
modelled as succeeding; the pdfium error text is elided. -/
def extract_pdf_page (doc : PdfDocument) (pageNumber : Nat) (outputPath : String) :
    Except String String :=
  if ((pageNumber + 4294967295) % 4294967296) % 65536 < doc.pageCount then
    Except.ok (if ".png".toList <:+ outputPath.toList then outputPath
      else outputPath ++ ".png")
  else Except.error ("Failed to get page " ++ toString pageNumber)

/-- A file-system entry, for `cleanup_temp_dir`. -/
inductive FsEntry
  | file
  | dir
deriving DecidableEq

/-- `cleanup_temp_dir` (pdf.rs lines 257-263) over a file system modelled
as a partial map from paths to entries: `path.exists() && path.is_dir()`
holds exactly when the map yields a directory; `remove_dir_all` removes
the path and everything below it (modelled as every path it prefixes) and
is assumed to succeed; in every other case the map is untouched and the
command returns success. -/
def cleanup_temp_dir (fs : String → Option FsEntry) (path : String) :
    (String → Option FsEntry) × Except String Unit :=
  if fs path = some FsEntry.dir then
    (fun q => if path.toList <+: q.toList then none else fs q, Except.ok ())
  else (fs, Except.ok ())

/-! ### Drive upload content type, from google_drive.rs -/

/-- The file-name component of a path: the characters after the last `/`
(models `Path::file_name` on Unix paths). -/
def fileNameOf (path : String) : List Char :=
  (path.toList.reverse.takeWhile (fun c => c ≠ '/')).reverse

/-- `Path::extension`: the portion of the file name after the last dot;
none when there is no dot, when the only dot is the leading dot of a
hidden file, or for the special name `..`. -/
def extensionOf (path : String) : Option (List Char) :=
  let f := fileNameOf path
  if f = ['.', '.'] then none
  else
    let revExt := f.reverse.takeWhile (fun c => c ≠ '.')
    if revExt.length = f.length then none
    else if revExt.length + 1 = f.length then none
    else some revExt.reverse

/-- The content-type inference of `upload_to_google_drive`
(google_drive.rs lines 54-65): take the final extension, default to the
empty string, lowercase it, and match. -/
def upload_content_type (path : String) : String :=
  let lower := ((extensionOf path).getD []).map Char.toLower
  if lower = "png".toList then "image/png"
  else if lower = "jpg".toList ∨ lower = "jpeg".toList then "image/jpeg"
  else if lower = "pdf".toList then "application/pdf"
  else "application/octet-stream"

/-- Spec-side mapping keyed directly on the (arbitrary-case) final
extension, for the refinement statement of C8: the result depends only on
the final extension, compared case-insensitively. -/
def specContentType : Option (List Char) → String
  | none => "application/octet-stream"
  | some cs =>
    if cs.map Char.toLower = "png".toList then "image/png"
    else if cs.map Char.toLower = "jpg".toList ∨ cs.map Char.toLower = "jpeg".toList then
      "image/jpeg"
    else if cs.map Char.toLower = "pdf".toList then "application/pdf"
    else "application/octet-stream"

/-- Shifting a map over `List.range`: peel off the first index. -/
lemma map_range_shift (g : Nat → ℚ) (r f : Nat) :
    (List.range (f + 1)).map (fun k => g (r + k)) =
      g r :: (List.range f).map (fun k => g (r + 1 + k)) := by
  rw [List.range_succ_eq_map, List.map_cons, List.map_map]
  refine congrArg₂ _ (by simp) ?_
  apply List.map_congr_left
  intro k _
  show g (r + (k + 1)) = g (r + 1 + k)
  congr 1
  omega

/-- If `op` always fails with a transient error, the loop runs the counter
up to `max_retries` and returns the last error, with one invocation per
value of the counter and one backoff delay per retry. -/
lemma retryLoop_all_err {T : Type} (op : Nat → Except String T) (jit : Nat → ℚ)
    (err : Nat → String) (hop : ∀ i, op i = Except.error (err i))
    (htr : ∀ i, is_retriable (err i) = true) :
    ∀ (f r : Nat), r + f = max_retries →
      retryLoop op jit r f =
        (Except.error (err max_retries), f + 1,
          (List.range f).map (fun k => backoff_delay (r + k) (jit (r + k)))) := by
  intro f
  induction f with
  | zero =>
    intro r hr
    have hr5 : r = max_retries := by omega
    subst hr5
    simp [retryLoop, hop]
  | succ f ih =>
    intro r hr
    have hr5 : ¬ max_retries ≤ r := by simp only [max_retries] at *; omega
    have hcond : ¬(is_retriable (err r) = false ∨ max_retries ≤ r) := by
      simp [htr r, hr5]
    have hdel : (List.range (f + 1)).map (fun k => backoff_delay (r + k) (jit (r + k))) =
        backoff_delay r (jit r) ::
          (List.range f).map (fun k => backoff_delay (r + 1 + k) (jit (r + 1 + k))) :=
      map_range_shift (fun k => backoff_delay k (jit k)) r f
    simp only [retryLoop, hop r]
    rw [if_neg hcond, ih (r + 1) (by omega), hdel]

/-- If `op` fails transiently up to invocation `k` and then succeeds, the
loop returns the success after `k - r + 1` invocations. -/
lemma retryLoop_succeeds {T : Type} (op : Nat → Except String T) (jit : Nat → ℚ)
    (err : Nat → String) (k : Nat) (v : T)
    (hok : op k = Except.ok v)
    (herr : ∀ i, i < k → op i = Except.error (err i))
    (htr : ∀ i, i < k → is_retriable (err i) = true) :
    ∀ (f r : Nat), r + f = max_retries → r ≤ k → k ≤ max_retries →
      retryLoop op jit r f =
        (Except.ok v, k - r + 1,
          (List.range (k - r)).map (fun j => backoff_delay (r + j) (jit (r + j)))) := by
  intro f
  induction f with
  | zero =>
    intro r hr hrk hk
    have hrk5 : r = k := by omega
    subst hrk5
    simp [retryLoop, hok]
  | succ f ih =>
    intro r hr hrk hk
    rcases Nat.eq_or_lt_of_le hrk with heq | hlt
    · subst heq
      simp [retryLoop, hok]
    · have hr5 : ¬ max_retries ≤ r := by simp only [max_retries] at *; omega
      have hcond : ¬(is_retriable (err r) = false ∨ max_retries ≤ r) := by
        simp [htr r hlt, hr5]
      have hkr : k - r = (k - (r + 1)) + 1 := by omega
      have hdel : (List.range (k - (r + 1) + 1)).map
            (fun j => backoff_delay (r + j) (jit (r + j))) =
          backoff_delay r (jit r) ::
            (List.range (k - (r + 1))).map
              (fun j => backoff_delay (r + 1 + j) (jit (r + 1 + j))) :=
        map_range_shift (fun j => backoff_delay j (jit j)) r (k - (r + 1))
      simp only [retryLoop, herr r hlt]
      rw [if_neg hcond, ih (r + 1) (by omega) (by omega) hk, hkr, hdel]

/-- A first invocation that fails non-transiently terminates the loop at
once, with no sleep. -/
lemma retryLoop_first_err {T : Type} (op : Nat → Except String T) (jit : Nat → ℚ)
    (e : String) (f r : Nat) (hop : op r = Except.error e)
    (hnt : is_retriable e = false) :
    retryLoop op jit r f = (Except.error e, 1, []) := by
  cases f with
  | zero => simp [retryLoop, hop]
  | succ f =>
    simp only [retryLoop, hop]
    rw [if_pos (Or.inl hnt)]

example : natChars 1 = ['1'] := rfl
example : natChars 9999 = ['9', '9', '9', '9'] := rfl
example : pageFileName 12 = "page-0012.png" := rfl

lemma natCharsAux_zero_right (f : Nat) : natCharsAux f 0 = [] := by
  cases f <;> rfl

lemma natCharsAux_eq {f n : Nat} (hf : 0 < f) (hn : 0 < n) :
    natCharsAux f n = natCharsAux (f - 1) (n / 10) ++ [digitChar (n % 10)] := by
  obtain ⟨f', rfl⟩ := Nat.exists_eq_succ_of_ne_zero (by omega : f ≠ 0)
  obtain ⟨n', rfl⟩ := Nat.exists_eq_succ_of_ne_zero (by omega : n ≠ 0)
  simp [natCharsAux]

lemma natChars_lt10 {p : Nat} (h1 : 0 < p) (h2 : p < 10) :
    natChars p = [digitChar p] := by
  unfold natChars
  rw [if_neg (by omega), natCharsAux_eq h1 h1,
    (by omega : p / 10 = 0), natCharsAux_zero_right, (by omega : p % 10 = p)]
  rfl

lemma natChars_lt100 {p : Nat} (h1 : 10 ≤ p) (h2 : p < 100) :
    natChars p = [digitChar (p / 10), digitChar (p % 10)] := by
  unfold natChars
  rw [if_neg (by omega), natCharsAux_eq (by omega) (by omega),
    natCharsAux_eq (f := p - 1) (by omega) (by omega : 0 < p / 10),
    (by omega : p / 10 / 10 = 0), natCharsAux_zero_right,
    (by omega : p / 10 % 10 = p / 10)]
  rfl

lemma natChars_lt1000 {p : Nat} (h1 : 100 ≤ p) (h2 : p < 1000) :
    natChars p = [digitChar (p / 100), digitChar (p / 10 % 10), digitChar (p % 10)] := by
  unfold natChars
  rw [if_neg (by omega), natCharsAux_eq (by omega) (by omega),
    natCharsAux_eq (f := p - 1) (by omega) (by omega : 0 < p / 10),
    (by omega : p / 10 / 10 = p / 100),
    natCharsAux_eq (f := p - 1 - 1) (by omega) (by omega : 0 < p / 100),
    (by omega : p / 100 / 10 = 0), natCharsAux_zero_right,
    (by omega : p / 100 % 10 = p / 100)]
  rfl

lemma natChars_lt10000 {p : Nat} (h1 : 1000 ≤ p) (h2 : p < 10000) :
    natChars p =
      [digitChar (p / 1000), digitChar (p / 100 % 10),
       digitChar (p / 10 % 10), digitChar (p % 10)] := by
  unfold natChars
  rw [if_neg (by omega), natCharsAux_eq (by omega) (by omega),
    natCharsAux_eq (f := p - 1) (by omega) (by omega : 0 < p / 10),
    (by omega : p / 10 / 10 = p / 100),
    natCharsAux_eq (f := p - 1 - 1) (by omega) (by omega : 0 < p / 100),
    (by omega : p / 100 / 10 = p / 1000),
    natCharsAux_eq (f := p - 1 - 1 - 1) (by omega) (by omega : 0 < p / 1000),
    (by omega : p / 1000 / 10 = 0), natCharsAux_zero_right,
    (by omega : p / 1000 % 10 = p / 1000)]
  rfl

/-- The format width 4 with zero padding produces exactly the four decimal
digits of `p` for `1 ≤ p ≤ 9999`. -/
lemma zeroPad4_natChars {p : Nat} (h1 : 1 ≤ p) (h2 : p ≤ 9999) :
    zeroPad4 (natChars p) = fourDigitChars p := by
  unfold zeroPad4 fourDigitChars
  by_cases c1 : p < 10
  · rw [natChars_lt10 (by omega) c1,
      (by omega : p / 1000 % 10 = 0), (by omega : p / 100 % 10 = 0),
      (by omega : p / 10 % 10 = 0), (by omega : p % 10 = p)]
    rfl
  by_cases c2 : p < 100
  · rw [natChars_lt100 (by omega) c2,
      (by omega : p / 1000 % 10 = 0), (by omega : p / 100 % 10 = 0),
      (by omega : p / 10 % 10 = p / 10)]
    rfl
  by_cases c3 : p < 1000
  · rw [natChars_lt1000 (by omega) c3,
      (by omega : p / 1000 % 10 = 0), (by omega : p / 100 % 10 = p / 100)]
    rfl
  · rw [natChars_lt10000 (by omega) (by omega),
      (by omega : p / 1000 % 10 = p / 1000)]
    rfl

lemma digitChar_lt_digitChar : ∀ a < 10, ∀ b < 10, a < b → digitChar a < digitChar b := by
  decide

/-- Numeric order of page numbers up to 9999 agrees with lexicographic
order of their zero-padded digit strings. -/
lemma fourDigit_lex {p q : Nat} (hpq : p < q) (hq : q ≤ 9999) :
    List.Lex (· < ·) (fourDigitChars p) (fourDigitChars q) := by
  have hd := digitChar_lt_digitChar
  have hp1 : p / 10 / 10 = p / 100 := by omega
  have hp2 : p / 100 / 10 = p / 1000 := by omega
  have hp3 : p / 1000 / 10 = 0 := by omega
  have hq1 : q / 10 / 10 = q / 100 := by omega
  have hq2 : q / 100 / 10 = q / 1000 := by omega
  have hq3 : q / 1000 / 10 = 0 := by omega
  have key : p / 1000 % 10 < q / 1000 % 10 ∨
      (p / 1000 % 10 = q / 1000 % 10 ∧ (p / 100 % 10 < q / 100 % 10 ∨
        (p / 100 % 10 = q / 100 % 10 ∧ (p / 10 % 10 < q / 10 % 10 ∨
          (p / 10 % 10 = q / 10 % 10 ∧ p % 10 < q % 10))))) := by omega
  unfold fourDigitChars
  rcases key with h | ⟨e1, h | ⟨e2, h | ⟨e3, h⟩⟩⟩
  · exact List.Lex.rel (hd _ (by omega) _ (by omega) h)
  · rw [e1]
    exact List.Lex.cons (List.Lex.rel (hd _ (by omega) _ (by omega) h))
  · rw [e1, e2]
    exact List.Lex.cons (List.Lex.cons (List.Lex.rel (hd _ (by omega) _ (by omega) h)))
  · rw [e1, e2, e3]
    exact List.Lex.cons (List.Lex.cons (List.Lex.cons
      (List.Lex.rel (hd _ (by omega) _ (by omega) h))))

/-- Lexicographic order of equal-length lists survives appending arbitrary
tails. -/
lemma lex_append_of_length {α : Type} {r : α → α → Prop} :
    ∀ {a b : List α}, List.Lex r a b → a.length = b.length →
      ∀ (u v : List α), List.Lex r (a ++ u) (b ++ v) := by
  intro a b h
  induction h with
  | nil => intro hlen; simp at hlen
  | rel hr => intro _ u v; exact List.Lex.rel hr
  | cons h ih => intro hlen u v; exact List.Lex.cons (ih (by simpa using hlen) u v)

/-- String order ignores a common prefix. -/
lemma string_append_lt_right (s : String) {u v : String}
    (h : List.Lex (· < ·) u.toList v.toList) : s ++ u < s ++ v := by
  rw [String.lt_iff_toList_lt]
  show List.Lex (· < ·) (s ++ u).toList (s ++ v).toList
  have h1 : (s ++ u).toList = s.toList ++ u.toList := rfl
  have h2 : (s ++ v).toList = s.toList ++ v.toList := rfl
  rw [h1, h2]
  exact List.Lex.append_left _ h _

lemma string_append_assoc (a b c : String) : a ++ b ++ c = a ++ (b ++ c) := by
  show String.mk ((a ++ b ++ c).toList) = String.mk ((a ++ (b ++ c)).toList)
  exact congrArg String.mk (List.append_assoc a.toList b.toList c.toList)

lemma pageFileName_lt {p q : Nat} (h1 : 1 ≤ p) (hpq : p < q) (hq : q ≤ 9999) :
    pageFileName p < pageFileName q := by
  unfold pageFileName
  rw [string_append_assoc "page-" (String.mk (zeroPad4 (natChars p))) ".png",
    string_append_assoc "page-" (String.mk (zeroPad4 (natChars q))) ".png"]
  apply string_append_lt_right
  have e1 : (String.mk (zeroPad4 (natChars p)) ++ ".png").toList =
      fourDigitChars p ++ ".png".toList := by
    show zeroPad4 (natChars p) ++ ".png".toList = _
    rw [zeroPad4_natChars h1 (by omega)]
  have e2 : (String.mk (zeroPad4 (natChars q)) ++ ".png").toList =
      fourDigitChars q ++ ".png".toList := by
    show zeroPad4 (natChars q) ++ ".png".toList = _
    rw [zeroPad4_natChars (by omega) hq]
  rw [e1, e2]
  exact lex_append_of_length (fourDigit_lex hpq hq) rfl _ _

lemma pagePath_lt (t : String) {p q : Nat} (h1 : 1 ≤ p) (hpq : p < q) (hq : q ≤ 9999) :
    pagePath t p < pagePath t q := by
  unfold pagePath
  exact string_append_lt_right (t ++ "/")
    (String.lt_iff_toList_lt.mp (pageFileName_lt h1 hpq hq))

/-- The page paths generated in page order are already sorted, so the final
sort leaves them in ascending page order. -/
lemma sortStrings_pages (t : String) (n : Nat) (hn : n ≤ 9999) :
    sortStrings ((List.range n).map (fun i => pagePath t (i + 1))) =
      (List.range n).map (fun i => pagePath t (i + 1)) := by
  apply List.mergeSort_of_sorted
  rw [List.pairwise_map]
  refine (List.pairwise_lt_range n).imp_of_mem ?_
  intro a b _ hb hab
  have hb' : b < n := List.mem_range.mp hb
  exact decide_eq_true (le_of_lt (pagePath_lt t (by omega) (by omega) (by omega)))

lemma collectResults_map_ok {α : Type} (f : Nat → α) (g : Nat → Except String α)
    (l : List Nat) (h : ∀ i ∈ l, g i = Except.ok (f i)) :
    collectResults (l.map g) = Except.ok (l.map f) := by
  induction l with
  | nil => rfl
  | cons a l ih =>
    rw [List.map_cons, h a (List.mem_cons_self a l)]
    show (collectResults (l.map g)).map _ = _
    rw [ih (fun i hi => h i (List.mem_cons_of_mem a hi))]
    rfl

lemma collectResults_ok_append_err {α : Type} (vs : List α) (e : String)
    (rest : List (Except String α)) :
    collectResults ((vs.map Except.ok) ++ (Except.error e :: rest)) = Except.error e := by
  induction vs with
  | nil => rfl
  | cons v vs ih =>
    rw [List.map_cons, List.cons_append]
    show (collectResults ((vs.map Except.ok) ++ (Except.error e :: rest))).map _ = _
    rw [ih]
    rfl

/-- Characterization of a successful split: the caller-supplied page count
fits in the document. -/
lemma split_pdf_ok_char (doc : PdfDocument) (t : String) (n : Nat)
    (h : n ≤ doc.pageCount) :
    split_pdf doc t n =
      Except.ok (sortStrings ((List.range n).map (fun i => pagePath t (i + 1)))) := by
  unfold split_pdf
  rw [collectResults_map_ok (fun i => pagePath t (i + 1)) (renderPage doc t) _ ?_]
  · rfl
  · intro i hi
    have : i < doc.pageCount := lt_of_lt_of_le (List.mem_range.mp hi) h
    simp [renderPage, this]

/-- Characterization of a failing split: the first out-of-range page index
is the document's page count. -/
lemma split_pdf_err_char (doc : PdfDocument) (t : String) (n : Nat)
    (h : doc.pageCount < n) :
    split_pdf doc t n =
      Except.error ("Failed to get page " ++ toString (doc.pageCount + 1)) := by
  unfold split_pdf
  obtain ⟨m, rfl⟩ : ∃ m, n = doc.pageCount + (m + 1) := ⟨n - doc.pageCount - 1, by omega⟩
  rw [List.range_add, List.map_append, List.range_succ_eq_map, List.map_cons, List.map_cons]
  have hfirst : (List.range doc.pageCount).map (renderPage doc t) =
      ((List.range doc.pageCount).map (fun i => pagePath t (i + 1))).map Except.ok := by
    rw [List.map_map]
    apply List.map_congr_left
    intro i hi
    have : i < doc.pageCount := List.mem_range.mp hi
    simp [renderPage, this]
  have hhead : renderPage doc t (doc.pageCount + 0) =
      Except.error ("Failed to get page " ++ toString (doc.pageCount + 1)) := by
    simp [renderPage]
  rw [hfirst, hhead, collectResults_ok_append_err]
  rfl

/-- C2: for every operation that fails on every invocation with a
transient-classified error, `execute_with_retry` invokes the operation
exactly `max_retries + 1 = 6` times and returns the error of the last
invocation. -/
theorem C2_retry_exhaustion {T : Type} (op : Nat → Except String T) (jit : Nat → ℚ)
    (err : Nat → String) (hop : ∀ i, op i = Except.error (err i))
    (htr : ∀ i, is_retriable (err i) = true) :
    execute_with_retry op jit =
      (Except.error (err 5), 6,
        (List.range 5).map (fun a => backoff_delay a (jit a))) := by
  have h := retryLoop_all_err op jit err hop htr max_retries 0 rfl
  simpa [execute_with_retry, max_retries] using h

/-- C2 witness: a concrete always-503 operation is invoked 6 times and its
last error is returned. -/
theorem C2_witness :
    execute_with_retry (fun _ => (Except.error "503" : Except String Nat)) (fun _ => (0 : ℚ)) =
      (Except.error "503", 6, (List.range 5).map (fun a => backoff_delay a 0)) :=
  C2_retry_exhaustion (fun _ => Except.error "503") (fun _ => 0) (fun _ => "503")
    (fun _ => rfl) (fun _ => show is_retriable "503" = true by decide)

/-- C3: for every `k ≤ max_retries` and every operation failing with a
transient-classified error on its first `k` invocations and succeeding on
invocation `k + 1`, `execute_with_retry` returns that success and the
operation is invoked exactly `k + 1` times. -/
theorem C3_retry_then_success {T : Type} (op : Nat → Except String T) (jit : Nat → ℚ)
    (err : Nat → String) (k : Nat) (v : T)
    (hk : k ≤ max_retries)
    (hok : op k = Except.ok v)
    (herr : ∀ i, i < k → op i = Except.error (err i))
    (htr : ∀ i, i < k → is_retriable (err i) = true) :
    execute_with_retry op jit =
      (Except.ok v, k + 1, (List.range k).map (fun j => backoff_delay j (jit j))) := by
  have h := retryLoop_succeeds op jit err k v hok herr htr max_retries 0 rfl
    (Nat.zero_le _) hk
  simpa using h

/-- C3 witness: two timeouts then success yields the success value after
exactly 3 invocations. -/
theorem C3_witness :
    execute_with_retry
        (fun i => if i < 2 then Except.error "timeout" else Except.ok (7 : Nat))
        (fun _ => (0 : ℚ)) =
      (Except.ok 7, 3, (List.range 2).map (fun j => backoff_delay j 0)) :=
  C3_retry_then_success
    (fun i => if i < 2 then Except.error "timeout" else Except.ok (7 : Nat))
    (fun _ => 0) (fun _ => "timeout") 2 7 (by decide) rfl
    (fun i hi => if_pos hi)
    (fun _ _ => show is_retriable "timeout" = true by decide)

/-- C4 counterexample: the error text `Connection TIMEOUT` contains a
case-insensitive occurrence of the token `timeout` (its lowercased text
contains the token), yet the classifier — which only tests the two literal
spellings `timeout` and `Timeout` — marks it permanent, and the executor
returns it after a single invocation.  This refutes the claimed
equivalence between transience and a case-insensitively matched timeout
token. -/
theorem C4_counterexample :
    "timeout".toList <:+: ("Connection TIMEOUT".toList.map Char.toLower) ∧
    is_retriable "Connection TIMEOUT" = false ∧
    execute_with_retry
        (fun _ => (Except.error "Connection TIMEOUT" : Except String Nat))
        (fun _ => (0 : ℚ)) =
      (Except.error "Connection TIMEOUT", 1, []) :=
  ⟨by decide, by decide,
   retryLoop_first_err (fun _ => Except.error "Connection TIMEOUT") (fun _ => 0)
     "Connection TIMEOUT" max_retries 0 rfl (by decide)⟩

/-- C4 (amended): an error is classified transient exactly when its text
contains one of the substrings 429, 500, 502, 503, 504, or one of the two
literal token spellings `timeout` and `Timeout` (other case variants such
as `TIMEOUT` are permanent, see the counterexample); and an operation
whose first invocation fails with a non-transient error is invoked exactly
once, its error returned with no sleep. -/
theorem C4_transient_iff_and_fail_fast :
    (∀ e : String, is_retriable e = true ↔
      ("429".toList <:+: e.toList ∨ "500".toList <:+: e.toList ∨
       "502".toList <:+: e.toList ∨ "503".toList <:+: e.toList ∨
       "504".toList <:+: e.toList ∨ "timeout".toList <:+: e.toList ∨
       "Timeout".toList <:+: e.toList)) ∧
    (∀ (T : Type) (op : Nat → Except String T) (jit : Nat → ℚ) (e : String),
      op 0 = Except.error e → is_retriable e = false →
      execute_with_retry op jit = (Except.error e, 1, [])) := by
  constructor
  · intro e
    simp only [is_retriable, containsSub, Bool.or_eq_true, decide_eq_true_eq]
    tauto
  · intro T op jit e hop hnt
    exact retryLoop_first_err op jit e max_retries 0 hop hnt

/-- C4 witness: a 404 error is non-transient and fails after a single
invocation with no sleep. -/
theorem C4_witness :
    is_retriable "Not found (404): File does not exist" = false ∧
    execute_with_retry
        (fun _ => (Except.error "Not found (404): File does not exist" : Except String Nat))
        (fun _ => (0 : ℚ)) =
      (Except.error "Not found (404): File does not exist", 1, []) :=
  ⟨by decide,
   C4_transient_iff_and_fail_fast.2 Nat
     (fun _ => Except.error "Not found (404): File does not exist")
     (fun _ => 0) "Not found (404): File does not exist" rfl (by decide)⟩

/-- C5 counterexample: the random draw `u32::MAX = 4294967295` makes the
jitter exactly 1, refuting the claimed strict bound `jitter < 1`. -/
theorem C5_counterexample :
    random_jitter 4294967295 = 1 ∧ ¬ random_jitter 4294967295 < 1 := by
  constructor
  · norm_num [random_jitter]
  · norm_num [random_jitter]

/-- C5 (amended): the backoff delay before retry `a + 1` equals
`min(1.5 ^ a, 15) + jitter`, and every possible jitter draw lies in the
closed interval `[0, 1]` (the endpoint 1 is attained, see the
counterexample). -/
theorem C5_backoff_formula_and_jitter_range (a r : Nat) (hr : r ≤ 4294967295) :
    backoff_delay a (random_jitter r) = min ((3 / 2 : ℚ) ^ a) 15 + random_jitter r ∧
    0 ≤ random_jitter r ∧ random_jitter r ≤ 1 := by
  refine ⟨rfl, ?_, ?_⟩
  · unfold random_jitter
    positivity
  · unfold random_jitter
    rw [div_le_one (by norm_num)]
    exact_mod_cast hr

/-- C5 witness: the amended statement evaluated at attempt 2 and draw 7. -/
theorem C5_witness :
    backoff_delay 2 (random_jitter 7) = min ((3 / 2 : ℚ) ^ 2) 15 + random_jitter 7 ∧
    0 ≤ random_jitter 7 ∧ random_jitter 7 ≤ 1 :=
  C5_backoff_formula_and_jitter_range 2 7 (by norm_num)

/-- C1: a successful split with page count `1 ≤ n ≤ 9999` returns exactly
`n` artifact paths, the sorted list coincides with ascending page order,
and each path carries the zero-padded 4-digit page number. -/
theorem C1_split_artifacts_sorted (doc : PdfDocument) (t : String) (n : Nat)
    (ps : List String) (h1 : 1 ≤ n) (h2 : n ≤ 9999)
    (hok : split_pdf doc t n = Except.ok ps) :
    ps.length = n ∧
    ps = (List.range n).map (fun i => pagePath t (i + 1)) ∧
    ∀ i, i < n → pagePath t (i + 1) =
      t ++ "/" ++ ("page-" ++ String.mk (fourDigitChars (i + 1)) ++ ".png") := by
  have hn : n ≤ doc.pageCount := by
    by_contra hc
    rw [split_pdf_err_char doc t n (by omega)] at hok
    exact Except.noConfusion hok
  rw [split_pdf_ok_char doc t n hn, sortStrings_pages t n h2] at hok
  have hps : ps = (List.range n).map (fun i => pagePath t (i + 1)) :=
    (Except.ok.inj hok).symm
  refine ⟨by rw [hps]; simp, hps, ?_⟩
  intro i hi
  show t ++ "/" ++ ("page-" ++ String.mk (zeroPad4 (natChars (i + 1))) ++ ".png") = _
  rw [zeroPad4_natChars (by omega) (by omega)]

/-- C1 witness: a one-page split at tempdir `/w` evaluated concretely. -/
theorem C1_witness :
    [pagePath "/w" 1].length = 1 ∧
    [pagePath "/w" 1] = (List.range 1).map (fun i => pagePath "/w" (i + 1)) ∧
    ∀ i, i < 1 → pagePath "/w" (i + 1) =
      "/w" ++ "/" ++ ("page-" ++ String.mk (fourDigitChars (i + 1)) ++ ".png") :=
  C1_split_artifacts_sorted ⟨1⟩ "/w" 1 [pagePath "/w" 1] (le_refl 1) (by omega)
    (by rw [split_pdf_ok_char ⟨1⟩ "/w" 1 (le_refl 1)]
        rw [show (List.range 1).map (fun i => pagePath "/w" (i + 1)) = [pagePath "/w" 1]
          from rfl]
        rw [show sortStrings [pagePath "/w" 1] = [pagePath "/w" 1]
          from List.mergeSort_singleton _])

/-- C6 counterexample: a document with 2 actual pages split with expected
count 1 returns success with a single artifact, silently dropping the
second page — refuting the claim that success never carries fewer
artifacts than the actual page count. -/
theorem C6_counterexample :
    (PdfDocument.mk 2).pageCount = 2 ∧
    split_pdf (PdfDocument.mk 2) "/t" 1 = Except.ok ["/t/page-0001.png"] ∧
    (1 : Nat) < 2 := by
  refine ⟨rfl, ?_, by omega⟩
  rw [split_pdf_ok_char ⟨2⟩ "/t" 1 (by decide)]
  rw [show (List.range 1).map (fun i => pagePath "/t" (i + 1)) = [pagePath "/t" 1] from rfl]
  rw [show sortStrings [pagePath "/t" 1] = [pagePath "/t" 1] from List.mergeSort_singleton _]
  rfl

/-- C6 (amended): on mismatch the pipeline is not silent only in one
direction.  If the expected count is at most the actual count, the split
succeeds and returns exactly the expected number of artifacts (so an
expected count below the actual one silently drops the remaining pages);
if the expected count exceeds the actual count, the split fails with the
page-get error for the first out-of-range page. -/
theorem C6_mismatch_behavior (doc : PdfDocument) (t : String) (n : Nat) :
    (n ≤ doc.pageCount →
      split_pdf doc t n =
          Except.ok (sortStrings ((List.range n).map (fun i => pagePath t (i + 1)))) ∧
        ∀ ps, split_pdf doc t n = Except.ok ps → ps.length = n) ∧
    (doc.pageCount < n →
      split_pdf doc t n = Except.error ("Failed to get page " ++ toString (doc.pageCount + 1))) := by
  constructor
  · intro hn
    refine ⟨split_pdf_ok_char doc t n hn, ?_⟩
    intro ps hok
    rw [split_pdf_ok_char doc t n hn] at hok
    rw [← Except.ok.inj hok]
    simp [sortStrings]
  · intro hn
    exact split_pdf_err_char doc t n hn

/-- C6 witness: both branches of the amended statement at concrete
inputs. -/
theorem C6_witness :
    split_pdf (PdfDocument.mk 1) "/y" 2 =
      Except.error ("Failed to get page " ++ toString 2) ∧
    ∀ ps, split_pdf (PdfDocument.mk 3) "/y" 2 = Except.ok ps → ps.length = 2 :=
  ⟨(C6_mismatch_behavior ⟨1⟩ "/y" 2).2 (by decide),
   ((C6_mismatch_behavior ⟨3⟩ "/y" 2).1 (by decide)).2⟩

/-- C7 counterexample: page number 65537 lies outside `[1, pageCount]` of a
1-page document, yet after the wrapping decrement and the `as u16` cast the
index becomes 0 and the call succeeds, returning a rendered page — refuting
the claim that every out-of-range page number fails. -/
theorem C7_counterexample :
    (PdfDocument.mk 1).pageCount < 65537 ∧
    extract_pdf_page (PdfDocument.mk 1) 65537 "out.png" = Except.ok "out.png" := by
  refine ⟨by decide, ?_⟩
  rfl

/-- C7 (amended): with release-build wrapping semantics, every page number
at most 65536 that lies outside `[1, pageCount]` (including 0) makes
`extract_pdf_page` fail with an error rather than succeed, provided the
page count fits in `u16`; page numbers above 65536 can wrap back into
range (see the counterexample). -/
theorem C7_out_of_range_fails (doc : PdfDocument) (p : Nat) (out : String)
    (hdoc : doc.pageCount ≤ 65535) (hp : p ≤ 65536)
    (hrange : p = 0 ∨ doc.pageCount < p) :
    ∃ e, extract_pdf_page doc p out = Except.error e := by
  unfold extract_pdf_page
  rw [if_neg (by omega)]
  exact ⟨_, rfl⟩

/-- C7 witness: page number 0 on a 3-page document fails. -/
theorem C7_witness : ∃ e, extract_pdf_page (PdfDocument.mk 3) 0 "x" = Except.error e :=
  C7_out_of_range_fails ⟨3⟩ 0 "x" (by decide) (by decide) (Or.inl rfl)

/-- C8: the uploaded content type is a function of the final extension
alone, matched case-insensitively, with the table png, jpg, jpeg, pdf and
a generic binary fallback; in particular IMAGE.PNG maps to image/png and
double extensions, hidden files and extensionless names fall back. -/
theorem C8_content_type_table :
    (∀ p : String, upload_content_type p = specContentType (extensionOf p)) ∧
    upload_content_type "IMAGE.PNG" = "image/png" ∧
    upload_content_type "photo.JPG" = "image/jpeg" ∧
    upload_content_type "scan.jpeg" = "image/jpeg" ∧
    upload_content_type "doc.Pdf" = "application/pdf" ∧
    upload_content_type "file.tar.gz" = "application/octet-stream" ∧
    upload_content_type "/test/.hidden" = "application/octet-stream" ∧
    upload_content_type "noextension" = "application/octet-stream" := by
  refine ⟨?_, rfl, rfl, rfl, rfl, rfl, rfl, rfl⟩
  intro p
  cases h : extensionOf p <;> simp [upload_content_type, specContentType, h]

/-- C9: every artifact of a successful split lies inside the returned temp
directory, the pipeline created that directory and wrote every returned
artifact into it, and it performs no removal — no automatic cleanup. -/
theorem C9_artifacts_in_tempdir_no_cleanup (doc : PdfDocument) (t : String)
    (n : Nat) (ps : List String) (hok : split_pdf doc t n = Except.ok ps) :
    (∀ p ∈ ps, ∃ rest, p = t ++ "/" ++ rest) ∧
    FsOp.createTempDir t ∈ split_pdf_ops doc t n ∧
    (∀ p ∈ ps, FsOp.writeFile p ∈ split_pdf_ops doc t n) ∧
    (∀ q, FsOp.removeDirAll q ∉ split_pdf_ops doc t n) := by
  have hn : n ≤ doc.pageCount := by
    by_contra hc
    rw [split_pdf_err_char doc t n (by omega)] at hok
    exact Except.noConfusion hok
  rw [split_pdf_ok_char doc t n hn] at hok
  have hps : ps = sortStrings ((List.range n).map (fun i => pagePath t (i + 1))) :=
    (Except.ok.inj hok).symm
  have hmem : ∀ p ∈ ps, ∃ i, i < n ∧ p = pagePath t (i + 1) := by
    intro p hp
    rw [hps] at hp
    unfold sortStrings at hp
    rw [List.mem_mergeSort] at hp
    obtain ⟨i, hi, hpe⟩ := List.mem_map.mp hp
    exact ⟨i, List.mem_range.mp hi, hpe.symm⟩
  refine ⟨?_, List.mem_cons_self _ _, ?_, ?_⟩
  · intro p hp
    obtain ⟨i, hin, rfl⟩ := hmem p hp
    exact ⟨pageFileName (i + 1), rfl⟩
  · intro p hp
    obtain ⟨i, hin, rfl⟩ := hmem p hp
    apply List.mem_cons_of_mem
    apply List.mem_filterMap.mpr
    exact ⟨i, List.mem_range.mpr hin, by rw [if_pos (lt_of_lt_of_le hin hn)]⟩
  · intro q hq
    rcases List.mem_cons.mp hq with h | h
    · exact FsOp.noConfusion h
    · obtain ⟨i, _, heq⟩ := List.mem_filterMap.mp h
      by_cases hc : i < doc.pageCount
      · rw [if_pos hc] at heq
        exact FsOp.noConfusion (Option.some.inj heq)
      · rw [if_neg hc] at heq
        exact Option.noConfusion heq

/-- C9 witness: a one-page split at tempdir `/x` evaluated concretely. -/
theorem C9_witness :
    (∀ p ∈ [pagePath "/x" 1], ∃ rest, p = "/x" ++ "/" ++ rest) ∧
    FsOp.createTempDir "/x" ∈ split_pdf_ops ⟨1⟩ "/x" 1 ∧
    (∀ p ∈ [pagePath "/x" 1], FsOp.writeFile p ∈ split_pdf_ops ⟨1⟩ "/x" 1) ∧
    (∀ q, FsOp.removeDirAll q ∉ split_pdf_ops ⟨1⟩ "/x" 1) :=
  C9_artifacts_in_tempdir_no_cleanup ⟨1⟩ "/x" 1 [pagePath "/x" 1]
    (by rw [split_pdf_ok_char ⟨1⟩ "/x" 1 (le_refl 1)]
        rw [show (List.range 1).map (fun i => pagePath "/x" (i + 1)) = [pagePath "/x" 1]
          from rfl]
        rw [show sortStrings [pagePath "/x" 1] = [pagePath "/x" 1]
          from List.mergeSort_singleton _])

/-- C10: `cleanup_temp_dir` on a path that is a regular file, or that does
not exist, returns success and leaves the file system untouched — deletion
happens only for an existing directory. -/
theorem C10_cleanup_non_directory (fs : String → Option FsEntry) (path : String)
    (h : fs path = some FsEntry.file ∨ fs path = none) :
    cleanup_temp_dir fs path = (fs, Except.ok ()) := by
  unfold cleanup_temp_dir
  rcases h with h | h <;> rw [if_neg (by simp [h])]

/-- C10 witness: a file system holding one regular file is untouched. -/
theorem C10_witness :
    cleanup_temp_dir (fun q => if q = "/tmp/f.txt" then some FsEntry.file else none)
        "/tmp/f.txt" =
      ((fun q => if q = "/tmp/f.txt" then some FsEntry.file else none), Except.ok ()) :=
  C10_cleanup_non_directory _ _ (Or.inl (if_pos rfl))

end Tahweel
